import Mathlib

/-!
Shallow embedding of the idlepixel-websocket-monitor program
(src/websocket_monitor.py) together with theorems checking its
natural-language specification.

Python strings are modelled as Lean String (or List Char where character
level reasoning is required); environment access, the scraped page and the
wall clock are passed in explicitly; a Python exception escaping a function
is modelled by Option/Except; the side effects of the callbacks (prints,
websocket sends, signature acquisitions, frame-logger invocations) are
returned as explicit event traces.
-/

/-- Apostrophe (single quote) character, written through its code point. -/
def squote : Char := Char.ofNat 39

/-- Two-digit zero-padded decimal rendering, as produced by strftime for
in-range field values (hours, minutes, seconds, day, month). -/
def pad2 (n : Nat) : List Char :=
  [Nat.digitChar (n / 10 % 10), Nat.digitChar (n % 10)]

/-- Three-digit zero-padded decimal rendering (milliseconds). -/
def pad3 (n : Nat) : List Char :=
  [Nat.digitChar (n / 100 % 10), Nat.digitChar (n / 10 % 10), Nat.digitChar (n % 10)]

/-- Four-digit zero-padded decimal rendering (years, strftime %Y). -/
def pad4 (n : Nat) : List Char :=
  [Nat.digitChar (n / 1000 % 10), Nat.digitChar (n / 100 % 10),
   Nat.digitChar (n / 10 % 10), Nat.digitChar (n % 10)]

/-- Six-digit zero-padded decimal rendering (microseconds, strftime %f). -/
def pad6 (n : Nat) : List Char :=
  [Nat.digitChar (n / 100000 % 10), Nat.digitChar (n / 10000 % 10),
   Nat.digitChar (n / 1000 % 10), Nat.digitChar (n / 100 % 10),
   Nat.digitChar (n / 10 % 10), Nat.digitChar (n % 10)]

/-- A wall-clock instant, the data read from datetime.utcnow / datetime.now. -/
structure DateTime where
  year : Nat
  month : Nat
  day : Nat
  hour : Nat
  minute : Nat
  second : Nat
  micro : Nat
deriving DecidableEq

/-- strftime with format string percent-H colon percent-M colon percent-S dot
percent-f, as called in log_ws_message (line 121 of the source). -/
def strftimeHMSf (t : DateTime) : List Char :=
  pad2 t.hour ++ ':' :: pad2 t.minute ++ ':' :: pad2 t.second ++ '.' :: pad6 t.micro

/-- strftime with the date-comma-time format used by on_ws_error
(line 93 of the source). -/
def strftimeErr (t : DateTime) : String :=
  ⟨pad2 t.day ++ '/' :: pad2 t.month ++ '/' :: pad4 t.year ++
    ' ' :: ',' :: ' ' :: pad2 t.hour ++ ':' :: pad2 t.minute ++ ':' :: pad2 t.second⟩

/-- The time string built in log_ws_message: the strftime output with its
last three characters removed, as Python slicing to minus three does. -/
def logTime (t : DateTime) : String :=
  ⟨(strftimeHMSf t).take ((strftimeHMSf t).length - 3)⟩

/-- The message_data dict built by log_ws_message (lines 120 to 125). -/
structure MessageData where
  time : String
  length : Nat
  message : String
  received : Bool
deriving DecidableEq

/-- Result of one call of log_ws_message: the dict, the formatted line, and
the list of lines printed (the call prints exactly the formatted line). -/
structure LogResult where
  message_data : MessageData
  formatted_output : String
  output : List String
deriving DecidableEq

/-- log_ws_message (lines 119 to 131 of the source), the frame logger. -/
def log_ws_message (now : DateTime) (raw_message : String) (received : Bool) : LogResult :=
  let message_data : MessageData := ⟨logTime now, raw_message.length, raw_message, received⟩
  let direction_indicator : String := if received then "↓" else "↑"
  let formatted_output : String :=
    direction_indicator ++ "[" ++ message_data.time ++ "] " ++ message_data.message
  ⟨message_data, formatted_output, [formatted_output]⟩

/-- One observable action of a websocket callback: a console print, a frame
sent on the transport, a signature-acquisition attempt (with its outcome),
or an invocation of the frame logger log_ws_message. -/
inductive Ev where
  | printed (line : String)
  | sent (frame : String)
  | acquire (result : Option String)
  | logged (message : String) (received : Bool)
deriving DecidableEq

/-- A call of log_ws_message as seen in a callback trace: the invocation
record followed by the lines the logger prints. -/
def callLogger (now : DateTime) (msg : String) (received : Bool) : List Ev :=
  Ev.logged msg received :: (log_ws_message now msg received).output.map Ev.printed

/-- on_ws_message (lines 67 to 76): forwards the raw frame to the frame
logger with received set to True, and does nothing else. -/
def on_ws_message (now : DateTime) (raw_message : String) : List Ev :=
  callLogger now raw_message true

/-- Errors delivered to on_ws_error: either the transport
WebSocketConnectionClosedException, or any other exception, carried with its
string rendering and its traceback lines. -/
inductive WsError where
  | connectionClosed
  | other (desc : String) (tb : List String)
deriving DecidableEq

/-- on_ws_error (lines 79 to 95): an informational retry line for the
connection-already-closed exception; otherwise timestamp, error and the
traceback. The function is total: it never raises. -/
def on_ws_error (now : DateTime) : WsError → List Ev
  | WsError.connectionClosed => [Ev.printed "Connection closed. Retrying..."]
  | WsError.other desc tb => Ev.printed (strftimeErr now) :: Ev.printed desc :: tb.map Ev.printed

/-- on_ws_close (lines 98 to 100). -/
def on_ws_close : List Ev :=
  [Ev.printed "### closed ###"]

/-- on_ws_open (lines 103 to 116): prints, runs the signature acquirer, and
on success sends LOGIN= followed by the raw signature as the first frame.
sigResult is the outcome of asyncio.run of get_signature: none models the
acquirer raising, in which case the handler performs nothing further. -/
def on_ws_open (sigResult : Option String) : List Ev :=
  Ev.printed "Opened connection." :: Ev.printed "Acquiring signature..." ::
    Ev.acquire sigResult ::
    match sigResult with
    | none => []
    | some signature =>
      [Ev.printed "Signature acquired.", Ev.printed "Logging in...",
       Ev.sent ("LOGIN=" ++ signature)]

/-- One transport event delivered to the callbacks of the WebSocketApp,
carrying the ambient inputs the corresponding handler reads (clock,
acquirer outcome). -/
inductive WsEvent where
  | opened (sigResult : Option String)
  | message (now : DateTime) (raw : String)
  | error (now : DateTime) (err : WsError)
  | closed
deriving DecidableEq

/-- Dispatch of one transport event to its handler, per the WebSocketApp
registration at lines 138 to 142 of the source. -/
def dispatch : WsEvent → List Ev
  | WsEvent.opened r => on_ws_open r
  | WsEvent.message now raw => on_ws_message now raw
  | WsEvent.error now e => on_ws_error now e
  | WsEvent.closed => on_ws_close

/-- The trace of observable actions of a session processing a sequence of
transport events in order. -/
def runSession : List WsEvent → List Ev
  | [] => []
  | e :: es => dispatch e ++ runSession es

/-- Trace of a session whose first transport event is the open, with the
acquirer succeeding with the given signature. -/
def sessionTrace (sig : String) (rest : List WsEvent) : List Ev :=
  runSession (WsEvent.opened (some sig) :: rest)

/-- Test for a frame-send action. -/
def isSent : Ev → Bool
  | Ev.sent _ => true
  | _ => false

/-- Test for a signature-acquisition action. -/
def isAcquire : Ev → Bool
  | Ev.acquire _ => true
  | _ => false

/-- Test for a frame-logger invocation. -/
def isLogged : Ev → Bool
  | Ev.logged _ _ => true
  | _ => false

/-- Test for a console print. -/
def isPrinted : Ev → Bool
  | Ev.printed _ => true
  | _ => false

/-- Holds when an action, if it is a logger invocation, has the inbound
direction. -/
def loggedInbound : Ev → Bool
  | Ev.logged _ r => r
  | _ => true

/-- Test for an open transport event. -/
def isOpened : WsEvent → Bool
  | WsEvent.opened _ => true
  | _ => false

/-- Spec-side rendering HH:MM:SS.mmm with millisecond precision, used to
state the formatting contract of the frame logger. -/
def hmsMilliFormat (h m s ms : Nat) : String :=
  ⟨pad2 h ++ ':' :: pad2 m ++ ':' :: pad2 s ++ '.' :: pad3 ms⟩

/-- get_env_var (lines 12 to 18): returns the environment entry, or fails
after printing the diagnostic naming the variable; the error value carries
the printed diagnostic line. -/
def get_env_var (env : String → Option String) (env_var : String) : Except String String :=
  match env env_var with
  | some v => Except.ok v
  | none => Except.error ("Missing environment variable: " ++ env_var)

/-- The required environment keys, in the iteration order of the dict
literal of get_env_consts (lines 23 to 26). -/
def envConstKeys : List String :=
  ["IP_USERNAME", "IP_PASSWORD"]

/-- The loop body of get_env_consts: looks the keys up in order, failing at
the first absent one (the KeyError propagates immediately). -/
def lookupEnvList (env : String → Option String) : List String → Except String (List (String × String))
  | [] => Except.ok []
  | k :: ks =>
    match get_env_var env k with
    | Except.error e => Except.error e
    | Except.ok v =>
      match lookupEnvList env ks with
      | Except.error e => Except.error e
      | Except.ok rest => Except.ok ((k, v) :: rest)

/-- get_env_consts (lines 21 to 31). -/
def get_env_consts (env : String → Option String) : Except String (List (String × String)) :=
  lookupEnvList env envConstKeys

/-- The websocket endpoint of line 138. -/
def wsUrl : String := "wss://server1.idle-pixel.com"

/-- Startup-level observable action: a printed diagnostic, or the start of a
network connection attempt (ws.run_forever reaching the transport). -/
inductive MainEv where
  | diagnostic (line : String)
  | connectAttempt (url : String)
deriving DecidableEq

/-- Test for a connection attempt at startup. -/
def isConnectAttempt : MainEv → Bool
  | MainEv.connectAttempt _ => true
  | _ => false

/-- The main block (lines 134 to 146) up to the first connection attempt:
get_env_consts runs first; if it fails the diagnostic is printed and the
process dies before any network activity; otherwise the WebSocketApp is
built and run_forever starts connecting to wsUrl. -/
def main_model (env : String → Option String) : List MainEv :=
  match get_env_consts env with
  | Except.error d => [MainEv.diagnostic d]
  | Except.ok _ => [MainEv.connectAttempt wsUrl]

/-- Python single-character str.split with no maxsplit: returns the chunks
between occurrences of the separator, always at least one chunk. -/
def pySplit (c : Char) : List Char → List (List Char)
  | [] => [[]]
  | x :: xs =>
    if x = c then [] :: pySplit c xs
    else
      match pySplit c xs with
      | [] => [[x]]
      | r :: rs => (x :: r) :: rs

/-- Python single-character str.split with maxsplit one: at most one split,
at the first occurrence of the separator. -/
def pySplit1 (c : Char) : List Char → List (List Char)
  | [] => [[]]
  | x :: xs =>
    if x = c then [[], xs]
    else
      match pySplit1 c xs with
      | [] => [[x]]
      | r :: rs => (x :: r) :: rs

/-- The extraction part of get_signature (lines 56 to 64), from the text of the
first script tag of the parsed page. The input is none when the parsed
document has no script tag (soup.find returns None and the attribute access
raises); the output is none when an exception is raised (indexing position
one of the split result fails). -/
def get_signature (scriptText : Option (List Char)) : Option (List Char) :=
  match scriptText with
  | none => none
  | some script_tag =>
    let sig_plus_wrap := (pySplit1 ';' script_tag).headI
    (pySplit squote sig_plus_wrap)[1]?

/-- Spec-side description: the content up to the first semicolon. -/
def uptoFirstSemicolon (s : List Char) : List Char :=
  s.takeWhile (fun x => x ≠ ';')

/-- Spec-side description: the substring lying after the first apostrophe
and before the next apostrophe (or the end), the first single-quoted
literal. -/
def betweenFirstTwoQuotes (s : List Char) : List Char :=
  ((s.dropWhile (fun x => x ≠ squote)).drop 1).takeWhile (fun x => x ≠ squote)

/-- The reconnect parameter passed to ws.run_forever at line 145. -/
def reconnectDelay : Nat := 120

/-- Modelled from the spec: the automatic-reconnect scheduler is implemented
by the external websocket-client run_forever together with the rel
dispatcher, not by code under src; src only configures it with
reconnectDelay. State of the retry loop: connected, or cooling down with the
given number of seconds remaining. -/
inductive LoopState where
  | connected
  | cooldown (remaining : Nat)
deriving DecidableEq

/-- Modelled from the spec: one one-second step of the retry loop. The Bool
input tells whether the transport reported an unexpected close during this
second; a close puts the loop into a full fixed cooldown, a finished
cooldown reconnects. -/
def loopStep : LoopState → Bool → LoopState
  | LoopState.connected, true => LoopState.cooldown reconnectDelay
  | LoopState.connected, false => LoopState.connected
  | LoopState.cooldown 0, _ => LoopState.connected
  | LoopState.cooldown (r + 1), _ => LoopState.cooldown r

/-- Modelled from the spec: whether a connection attempt is made during the
current second (the cooldown has elapsed). -/
def attemptNow : LoopState → Bool
  | LoopState.cooldown 0 => true
  | _ => false

/-- Modelled from the spec: the per-second trace of connection attempts of
the retry loop over a finite sequence of close signals. -/
def runLoop : LoopState → List Bool → List Bool
  | _, [] => []
  | s, c :: cs => attemptNow s :: runLoop (loopStep s c) cs

/-- Modelled from the spec: number of connection attempts within the given
number of seconds when every connection is immediately closed by the peer
(the worst case exercising the retry loop forever). -/
def countAttemptsAllClosed : LoopState → Nat → Nat
  | _, 0 => 0
  | s, n + 1 => (if attemptNow s then 1 else 0) + countAttemptsAllClosed (loopStep s true) n

/-- A fixed sample instant, used to instantiate clock inputs in witnesses. -/
def sampleTime : DateTime := ⟨2024, 5, 6, 7, 8, 9, 123456⟩

theorem logTime_eq (t : DateTime) :
    logTime t = hmsMilliFormat t.hour t.minute t.second (t.micro / 1000) := by
  have lhs : logTime t = ⟨[Nat.digitChar (t.hour / 10 % 10), Nat.digitChar (t.hour % 10), ':',
      Nat.digitChar (t.minute / 10 % 10), Nat.digitChar (t.minute % 10), ':',
      Nat.digitChar (t.second / 10 % 10), Nat.digitChar (t.second % 10), '.',
      Nat.digitChar (t.micro / 100000 % 10), Nat.digitChar (t.micro / 10000 % 10),
      Nat.digitChar (t.micro / 1000 % 10)]⟩ := rfl
  have rhs : hmsMilliFormat t.hour t.minute t.second (t.micro / 1000) =
      ⟨[Nat.digitChar (t.hour / 10 % 10), Nat.digitChar (t.hour % 10), ':',
        Nat.digitChar (t.minute / 10 % 10), Nat.digitChar (t.minute % 10), ':',
        Nat.digitChar (t.second / 10 % 10), Nat.digitChar (t.second % 10), '.',
        Nat.digitChar (t.micro / 1000 / 100 % 10), Nat.digitChar (t.micro / 1000 / 10 % 10),
        Nat.digitChar (t.micro / 1000 % 10)]⟩ := rfl
  have e1 : t.micro / 1000 / 100 = t.micro / 100000 := by omega
  have e2 : t.micro / 1000 / 10 = t.micro / 10000 := by omega
  rw [lhs, rhs, e1, e2]

/-- C7: every call of the frame logger emits exactly one line; the line
starts with a direction glyph distinct for inbound versus outbound, then a
timestamp rendered as HH:MM:SS.mmm with millisecond precision, then the full
payload verbatim with no truncation; for the inbound payload PING the
message data carries the correct length 4. -/
theorem c7_frame_logger_format (t : DateTime) (msg : String) (received : Bool) :
    (log_ws_message t msg received).output = [(log_ws_message t msg received).formatted_output] ∧
    (log_ws_message t msg received).formatted_output =
      (if received then "↓" else "↑") ++ "[" ++ logTime t ++ "] " ++ msg ∧
    (("↓" : String) == "↑") = false ∧
    logTime t = hmsMilliFormat t.hour t.minute t.second (t.micro / 1000) ∧
    (log_ws_message t msg received).message_data.length = msg.length ∧
    (log_ws_message t "PING" true).message_data.length = 4 :=
  ⟨rfl, rfl, by decide, logTime_eq t, rfl, rfl⟩

/-- C4: the error handler prints the single informational retry line exactly
when the error is the connection-already-closed exception; for every other
error it prints the timestamp, the error and the full traceback; in either
case it only prints (it neither raises nor terminates the process). -/
theorem c4_error_handler_classification (now : DateTime) (err : WsError) :
    (on_ws_error now err = [Ev.printed "Connection closed. Retrying..."] ↔
      err = WsError.connectionClosed) ∧
    (∀ desc tb, err = WsError.other desc tb →
      on_ws_error now err =
        Ev.printed (strftimeErr now) :: Ev.printed desc :: tb.map Ev.printed) ∧
    (on_ws_error now err).all isPrinted = true := by
  refine ⟨?_, ?_, ?_⟩
  · cases err with
    | connectionClosed => simp [on_ws_error]
    | other desc tb =>
      constructor
      · intro h
        have hl := congrArg List.length h
        simp only [on_ws_error, List.length_cons, List.length_map, List.length_nil] at hl
        exact absurd hl (by omega)
      · intro h
        exact WsError.noConfusion h
  · intro desc tb h
    subst h
    rfl
  · cases err with
    | connectionClosed => rfl
    | other desc tb =>
      simp [on_ws_error, isPrinted, List.all_map, Function.comp]

theorem c4_error_handler_classification_witness :
    on_ws_error ⟨2024, 1, 2, 3, 4, 5, 6⟩ (WsError.other "boom" ["line1"]) =
      Ev.printed (strftimeErr ⟨2024, 1, 2, 3, 4, 5, 6⟩) :: Ev.printed "boom" ::
        ["line1"].map Ev.printed :=
  (c4_error_handler_classification ⟨2024, 1, 2, 3, 4, 5, 6⟩
    (WsError.other "boom" ["line1"])).2.1 "boom" ["line1"] rfl

theorem on_ws_open_some (sig : String) :
    on_ws_open (some sig) =
      [Ev.printed "Opened connection.", Ev.printed "Acquiring signature...",
       Ev.acquire (some sig), Ev.printed "Signature acquired.", Ev.printed "Logging in...",
       Ev.sent ("LOGIN=" ++ sig)] := rfl

theorem mem_dispatch_nonopen {e : WsEvent} (h : isOpened e = false) {a : Ev}
    (ha : a ∈ dispatch e) : isSent a = false ∧ isAcquire a = false := by
  cases e with
  | opened r => simp [isOpened] at h
  | message now raw =>
    have hm : dispatch (WsEvent.message now raw) =
        [Ev.logged raw true, Ev.printed (log_ws_message now raw true).formatted_output] := rfl
    rw [hm] at ha
    simp only [List.mem_cons, List.mem_singleton, List.not_mem_nil, or_false] at ha
    rcases ha with rfl | rfl <;> exact ⟨rfl, rfl⟩
  | error now err =>
    cases err with
    | connectionClosed =>
      simp only [dispatch, on_ws_error, List.mem_singleton] at ha
      subst ha; exact ⟨rfl, rfl⟩
    | other desc tb =>
      simp only [dispatch, on_ws_error, List.mem_cons, List.mem_map] at ha
      rcases ha with rfl | rfl | ⟨b, hb, rfl⟩ <;> exact ⟨rfl, rfl⟩
  | closed =>
    simp only [dispatch, on_ws_close, List.mem_singleton] at ha
    subst ha; exact ⟨rfl, rfl⟩

theorem mem_runSession {a : Ev} : ∀ {evs : List WsEvent},
    a ∈ runSession evs → ∃ e ∈ evs, a ∈ dispatch e := by
  intro evs
  induction evs with
  | nil => intro h; simp [runSession] at h
  | cons e es ih =>
    intro h
    rw [show runSession (e :: es) = dispatch e ++ runSession es from rfl] at h
    rcases List.mem_append.mp h with h1 | h2
    · exact ⟨e, List.mem_cons_self e es, h1⟩
    · obtain ⟨e2, he2, ha2⟩ := ih h2
      exact ⟨e2, List.mem_cons_of_mem e he2, ha2⟩

theorem runSession_no_sent_acquire {evs : List WsEvent}
    (h : ∀ e ∈ evs, isOpened e = false) :
    (runSession evs).countP isSent = 0 ∧ (runSession evs).countP isAcquire = 0 := by
  refine ⟨List.countP_eq_zero.mpr ?_, List.countP_eq_zero.mpr ?_⟩ <;>
    intro a ha <;> obtain ⟨e, he, hae⟩ := mem_runSession ha
  · simp [(mem_dispatch_nonopen (h e he) hae).1]
  · simp [(mem_dispatch_nonopen (h e he) hae).2]

/-- C1: when the transport open event fires with the acquirer returning a
signature, the session performs exactly one signature acquisition and sends
exactly one outbound frame, whose content is exactly LOGIN= followed by the
raw signature with no additional encoding, and this frame is sent (at
position five of the trace, right after the acquisition at position two)
before any other frame of the session. -/
theorem c1_login_first_frame (sig : String) (rest : List WsEvent)
    (h : ∀ e ∈ rest, isOpened e = false) :
    (sessionTrace sig rest).countP isAcquire = 1 ∧
    (sessionTrace sig rest).countP isSent = 1 ∧
    (∀ f, Ev.sent f ∈ sessionTrace sig rest → f = "LOGIN=" ++ sig) ∧
    sessionTrace sig rest =
      Ev.printed "Opened connection." :: Ev.printed "Acquiring signature..." ::
      Ev.acquire (some sig) :: Ev.printed "Signature acquired." ::
      Ev.printed "Logging in..." :: Ev.sent ("LOGIN=" ++ sig) :: runSession rest := by
  have hsplit : sessionTrace sig rest = on_ws_open (some sig) ++ runSession rest := rfl
  obtain ⟨hs0, ha0⟩ := runSession_no_sent_acquire h
  refine ⟨?_, ?_, ?_, ?_⟩
  · rw [hsplit, List.countP_append, ha0, on_ws_open_some]
    simp [List.countP_cons, isAcquire]
  · rw [hsplit, List.countP_append, hs0, on_ws_open_some]
    simp [List.countP_cons, isSent]
  · intro f hf
    rw [hsplit] at hf
    rcases List.mem_append.mp hf with h1 | h2
    · rw [on_ws_open_some] at h1
      simp only [List.mem_cons, List.mem_singleton, List.not_mem_nil, or_false] at h1
      rcases h1 with h1 | h1 | h1 | h1 | h1 | h1
      · exact Ev.noConfusion h1
      · exact Ev.noConfusion h1
      · exact Ev.noConfusion h1
      · exact Ev.noConfusion h1
      · exact Ev.noConfusion h1
      · injection h1 with h1
    · exact absurd rfl (List.countP_eq_zero.mp hs0 (Ev.sent f) h2)
  · rfl

theorem c1_login_first_frame_witness :
    (∀ e ∈ [WsEvent.message sampleTime "PING"], isOpened e = false) ∧
    ((sessionTrace "abc123" [WsEvent.message sampleTime "PING"]).countP isAcquire = 1 ∧
     (sessionTrace "abc123" [WsEvent.message sampleTime "PING"]).countP isSent = 1 ∧
     (∀ f, Ev.sent f ∈ sessionTrace "abc123" [WsEvent.message sampleTime "PING"] →
        f = "LOGIN=" ++ "abc123") ∧
     sessionTrace "abc123" [WsEvent.message sampleTime "PING"] =
       Ev.printed "Opened connection." :: Ev.printed "Acquiring signature..." ::
       Ev.acquire (some "abc123") :: Ev.printed "Signature acquired." ::
       Ev.printed "Logging in..." :: Ev.sent ("LOGIN=" ++ "abc123") ::
       runSession [WsEvent.message sampleTime "PING"]) :=
  ⟨by decide, c1_login_first_frame "abc123" [WsEvent.message sampleTime "PING"] (by decide)⟩

/-- C3 counterexample: in a session whose open event fires with the
signature acquisition raising, a subsequently delivered frame is still
forwarded to the frame logger and logged as inbound although no LOGIN frame
is ever sent on the session, so the claimed ordering invariant fails for
sessions with a failed acquisition. -/
theorem c3_failed_open_logs_without_login :
    Ev.logged "PING" true ∈
      runSession [WsEvent.opened none, WsEvent.message sampleTime "PING"] ∧
    (runSession [WsEvent.opened none, WsEvent.message sampleTime "PING"]).countP isSent = 0 := by
  decide

/-- C3, amended: every inbound frame is forwarded to the frame logger with
direction inbound and nothing else happens in its handler; and in a session
that opens with a successful signature acquisition, any prefix of the trace
containing a logger invocation already contains the sent LOGIN frame (no
frame is logged before the LOGIN frame has been sent; when the acquisition
raises, the open handler sends nothing and later frames are logged without
any LOGIN). -/
theorem c3_inbound_forwarding_order (sig : String) (rest : List WsEvent) :
    (∀ now raw, on_ws_message now raw =
      [Ev.logged raw true, Ev.printed (log_ws_message now raw true).formatted_output]) ∧
    (∀ n, ((sessionTrace sig rest).take n).countP isLogged ≠ 0 →
      Ev.sent ("LOGIN=" ++ sig) ∈ (sessionTrace sig rest).take n) := by
  constructor
  · intro now raw
    rfl
  · intro n hn
    have hsplit : sessionTrace sig rest = on_ws_open (some sig) ++ runSession rest := rfl
    rw [hsplit, List.take_append_eq_append_take, List.countP_append] at hn
    have hzero : ((on_ws_open (some sig)).take n).countP isLogged = 0 := by
      apply List.countP_eq_zero.mpr
      intro a ha
      have ha2 : a ∈ on_ws_open (some sig) := List.take_subset n _ ha
      rw [on_ws_open_some] at ha2
      simp only [List.mem_cons, List.not_mem_nil, or_false] at ha2
      rcases ha2 with rfl | rfl | rfl | rfl | rfl | rfl <;> simp [isLogged]
    rw [hzero, Nat.zero_add] at hn
    have hlen : (on_ws_open (some sig)).length = 6 := by rw [on_ws_open_some]; rfl
    have h6 : 6 ≤ n := by
      by_contra hlt
      apply hn
      have hz : n - (on_ws_open (some sig)).length = 0 := by omega
      rw [hz]
      rfl
    rw [hsplit, List.take_append_eq_append_take]
    apply List.mem_append_left
    have hall : (on_ws_open (some sig)).take n = on_ws_open (some sig) :=
      List.take_of_length_le (by omega)
    rw [hall, on_ws_open_some]
    simp

theorem c3_inbound_forwarding_order_witness :
    (((sessionTrace "abc123" [WsEvent.message sampleTime "PING"]).take 8).countP isLogged ≠ 0) ∧
    Ev.sent ("LOGIN=" ++ "abc123") ∈
      (sessionTrace "abc123" [WsEvent.message sampleTime "PING"]).take 8 :=
  ⟨by decide,
   (c3_inbound_forwarding_order "abc123" [WsEvent.message sampleTime "PING"]).2 8 (by decide)⟩

/-- C9: in every execution the frame logger is only ever invoked with the
inbound direction; the open handler never invokes the frame logger and puts
the LOGIN frame directly on the transport; a logger line for an inbound
frame begins with the inbound glyph, which differs from the outbound glyph,
so the outbound glyph is never emitted. -/
theorem c9_logger_inbound_only :
    (∀ evs : List WsEvent, (runSession evs).all loggedInbound = true) ∧
    (∀ r : Option String, (on_ws_open r).all (fun a => !(isLogged a)) = true) ∧
    (∀ sig : String, Ev.sent ("LOGIN=" ++ sig) ∈ on_ws_open (some sig)) ∧
    (∀ now msg, (log_ws_message now msg true).formatted_output =
      "↓" ++ "[" ++ logTime now ++ "] " ++ msg) ∧
    (("↑" : String) == "↓") = false := by
  refine ⟨?_, ?_, ?_, ?_, by decide⟩
  · intro evs
    induction evs with
    | nil => rfl
    | cons e es ih =>
      rw [show runSession (e :: es) = dispatch e ++ runSession es from rfl,
        List.all_append, ih, Bool.and_true]
      cases e with
      | opened r => cases r <;> rfl
      | message now raw => rfl
      | error now err =>
        cases err with
        | connectionClosed => rfl
        | other desc tb =>
          simp [dispatch, on_ws_error, loggedInbound, List.all_map, Function.comp]
      | closed => rfl
  · intro r
    cases r <;> rfl
  · intro sig
    rw [on_ws_open_some]
    simp
  · intro now msg
    rfl

/-- C2: contrary to the claim, the code does not treat an empty signature as
an error: get_signature can return the empty string (a script whose first
quoted literal is empty), and on_ws_open given the empty signature proceeds
and sends the frame LOGIN= with nothing after the equals sign. -/
theorem c2_empty_signature_login_sent :
    get_signature (some [squote, squote]) = some [] ∧
    on_ws_open (some "") =
      [Ev.printed "Opened connection.", Ev.printed "Acquiring signature...",
       Ev.acquire (some ""), Ev.printed "Signature acquired.", Ev.printed "Logging in...",
       Ev.sent "LOGIN="] ∧
    (on_ws_open (some "")).countP isSent = 1 := by
  refine ⟨by decide, ?_, by decide⟩
  rw [on_ws_open_some]
  simp

theorem runLoop_cooldown (r : Nat) (closes : List Bool) (h : r < closes.length) :
    (runLoop (LoopState.cooldown r) closes).take r = List.replicate r false ∧
    (runLoop (LoopState.cooldown r) closes)[r]? = some true := by
  induction r generalizing closes with
  | zero =>
    cases closes with
    | nil => simp at h
    | cons c cs =>
      refine ⟨rfl, ?_⟩
      rw [show runLoop (LoopState.cooldown 0) (c :: cs) =
          true :: runLoop (loopStep (LoopState.cooldown 0) c) cs from rfl,
        List.getElem?_cons_zero]
  | succ r ih =>
    cases closes with
    | nil => simp at h
    | cons c cs =>
      have hr : r < cs.length := by
        simp only [List.length_cons] at h
        omega
      obtain ⟨h1, h2⟩ := ih cs hr
      constructor
      · rw [show runLoop (LoopState.cooldown (r + 1)) (c :: cs) =
            false :: runLoop (LoopState.cooldown r) cs from rfl,
          List.take_succ_cons, h1, List.replicate_succ]
      · rw [show runLoop (LoopState.cooldown (r + 1)) (c :: cs) =
            false :: runLoop (LoopState.cooldown r) cs from rfl,
          List.getElem?_cons_succ, h2]

theorem countAttemptsAllClosed_cooldown (r m : Nat) :
    countAttemptsAllClosed (LoopState.cooldown r) (r + 1 + m) =
      1 + countAttemptsAllClosed LoopState.connected m := by
  induction r with
  | zero =>
    rw [show 0 + 1 + m = m + 1 from by omega]
    rfl
  | succ r ih =>
    rw [show r + 1 + 1 + m = (r + 1 + m) + 1 from by omega]
    rw [show countAttemptsAllClosed (LoopState.cooldown (r + 1)) ((r + 1 + m) + 1) =
        (if attemptNow (LoopState.cooldown (r + 1)) then 1 else 0) +
        countAttemptsAllClosed (loopStep (LoopState.cooldown (r + 1)) true) (r + 1 + m)
      from rfl]
    rw [show attemptNow (LoopState.cooldown (r + 1)) = false from rfl,
      show loopStep (LoopState.cooldown (r + 1)) true = LoopState.cooldown r from rfl]
    simpa using ih

theorem countAttemptsAllClosed_connected (m : Nat) :
    countAttemptsAllClosed LoopState.connected (m + 1) =
      countAttemptsAllClosed (LoopState.cooldown reconnectDelay) m := by
  rw [show countAttemptsAllClosed LoopState.connected (m + 1) =
      (if attemptNow LoopState.connected then 1 else 0) +
      countAttemptsAllClosed (loopStep LoopState.connected true) m from rfl]
  simp [attemptNow, loopStep]

/-- C5: after an unexpected close the retry loop enters a full fixed
cooldown of 120 seconds (reconnectDelay, taken from the source); no
connection attempt occurs before the cooldown elapses, exactly one attempt
occurs in the window ending when it elapses, and the loop repeats without
bound: within every further whole cycle exactly one more attempt is made, so
the number of attempts is unlimited (no backoff growth, no retry count). -/
theorem c5_fixed_cooldown_reconnect :
    reconnectDelay = 120 ∧
    loopStep LoopState.connected true = LoopState.cooldown reconnectDelay ∧
    (∀ closes : List Bool, reconnectDelay < closes.length →
      (runLoop (LoopState.cooldown reconnectDelay) closes).take reconnectDelay =
        List.replicate reconnectDelay false ∧
      (runLoop (LoopState.cooldown reconnectDelay) closes)[reconnectDelay]? = some true ∧
      ((runLoop (LoopState.cooldown reconnectDelay) closes).take
        (reconnectDelay + 1)).countP (fun b => b) = 1) ∧
    (∀ k : Nat, countAttemptsAllClosed (LoopState.cooldown reconnectDelay)
      ((reconnectDelay + 2) * k) = k) := by
  refine ⟨rfl, rfl, ?_, ?_⟩
  · intro closes h
    obtain ⟨h1, h2⟩ := runLoop_cooldown reconnectDelay closes h
    refine ⟨h1, h2, ?_⟩
    rw [List.take_succ, h1, h2, List.countP_append]
    simp
  · intro k
    induction k with
    | zero => rfl
    | succ k ih =>
      rw [show (reconnectDelay + 2) * (k + 1) =
          reconnectDelay + 1 + (1 + (reconnectDelay + 2) * k) from by ring,
        countAttemptsAllClosed_cooldown,
        show 1 + (reconnectDelay + 2) * k = ((reconnectDelay + 2) * k) + 1 from by omega,
        countAttemptsAllClosed_connected, ih]
      omega

theorem c5_fixed_cooldown_reconnect_witness :
    (reconnectDelay < (List.replicate 121 true).length) ∧
    (runLoop (LoopState.cooldown reconnectDelay) (List.replicate 121 true))[reconnectDelay]? =
      some true :=
  ⟨by decide,
   ((c5_fixed_cooldown_reconnect.2.2.1 (List.replicate 121 true)) (by decide)).2.1⟩

/-- C6: if a required credential environment variable is absent at startup,
the process fails before any network connection is attempted, emitting the
diagnostic naming the first missing variable in loading order, and performs
nothing else (no partial startup). -/
theorem c6_missing_env_fails_before_connect (env : String → Option String) (k : String)
    (h : envConstKeys.find? (fun key => (env key).isNone) = some k) :
    main_model env = [MainEv.diagnostic ("Missing environment variable: " ++ k)] ∧
    (main_model env).all (fun e => !(isConnectAttempt e)) = true := by
  have hmain : main_model env = [MainEv.diagnostic ("Missing environment variable: " ++ k)] := by
    rcases h1 : env "IP_USERNAME" with _ | u
    · simp only [envConstKeys, List.find?, h1, Option.isNone_none, Option.some.injEq] at h
      subst h
      simp [main_model, get_env_consts, lookupEnvList, get_env_var, envConstKeys, h1]
    · rcases h2 : env "IP_PASSWORD" with _ | v
      · simp only [envConstKeys, List.find?, h1, h2, Option.isNone_none, Option.isNone_some,
          Option.some.injEq] at h
        subst h
        simp [main_model, get_env_consts, lookupEnvList, get_env_var, envConstKeys, h1, h2]
      · exfalso
        simp [envConstKeys, List.find?, h1, h2] at h
  refine ⟨hmain, ?_⟩
  rw [hmain]
  rfl

theorem c6_missing_env_fails_before_connect_witness :
    (envConstKeys.find? (fun key => ((fun _ => (none : Option String)) key).isNone) =
      some "IP_USERNAME") ∧
    (main_model (fun _ => none) =
      [MainEv.diagnostic ("Missing environment variable: " ++ "IP_USERNAME")] ∧
     (main_model (fun _ => none)).all (fun e => !(isConnectAttempt e)) = true) :=
  ⟨rfl, c6_missing_env_fails_before_connect (fun _ => none) "IP_USERNAME" rfl⟩

theorem pySplit1_ne_nil (c : Char) (s : List Char) : pySplit1 c s ≠ [] := by
  induction s with
  | nil => simp [pySplit1]
  | cons x xs ih =>
    by_cases hx : x = c
    · simp [pySplit1, hx]
    · cases hps : pySplit1 c xs with
      | nil => exact absurd hps ih
      | cons r rs => simp [pySplit1, hx, hps]

theorem pySplit_ne_nil (c : Char) (s : List Char) : pySplit c s ≠ [] := by
  induction s with
  | nil => simp [pySplit]
  | cons x xs ih =>
    by_cases hx : x = c
    · simp [pySplit, hx]
    · cases hps : pySplit c xs with
      | nil => exact absurd hps ih
      | cons r rs => simp [pySplit, hx, hps]

theorem pySplit1_headI (c : Char) (s : List Char) :
    (pySplit1 c s).headI = s.takeWhile (fun y => y ≠ c) := by
  induction s with
  | nil => rfl
  | cons x xs ih =>
    by_cases hx : x = c
    · subst hx
      simp [pySplit1, List.takeWhile_cons]
    · cases hps : pySplit1 c xs with
      | nil => exact absurd hps (pySplit1_ne_nil c xs)
      | cons r rs =>
        have hr : r = xs.takeWhile (fun y => y ≠ c) := by
          rw [hps] at ih
          simpa using ih
        simp [pySplit1, hx, hps, List.takeWhile_cons, hr]

theorem pySplit_zero (c : Char) (s : List Char) :
    (pySplit c s)[0]? = some (s.takeWhile (fun y => y ≠ c)) := by
  induction s with
  | nil => rfl
  | cons x xs ih =>
    by_cases hx : x = c
    · subst hx
      simp [pySplit, List.takeWhile_cons]
    · cases hps : pySplit c xs with
      | nil => exact absurd hps (pySplit_ne_nil c xs)
      | cons r rs =>
        have hr : r = xs.takeWhile (fun y => y ≠ c) := by
          rw [hps] at ih
          simpa using ih
        simp [pySplit, hx, hps, List.takeWhile_cons, hr]

theorem pySplit_one (c : Char) (s : List Char) (h : c ∈ s) :
    (pySplit c s)[1]? =
      some (((s.dropWhile (fun y => y ≠ c)).drop 1).takeWhile (fun y => y ≠ c)) := by
  induction s with
  | nil => simp at h
  | cons x xs ih =>
    by_cases hx : x = c
    · subst hx
      rw [show pySplit x (x :: xs) = [] :: pySplit x xs from by simp [pySplit],
        List.getElem?_cons_succ, pySplit_zero]
      simp [List.dropWhile_cons]
    · have hmem : c ∈ xs := by
        rcases List.mem_cons.mp h with h1 | h1
        · exact absurd h1.symm hx
        · exact h1
      cases hps : pySplit c xs with
      | nil => exact absurd hps (pySplit_ne_nil c xs)
      | cons r rs =>
        have h1 : (pySplit c (x :: xs))[1]? = (pySplit c xs)[1]? := by
          simp [pySplit, hx, hps]
        rw [h1, ih hmem, List.dropWhile_cons]
        simp [hx]

theorem pySplit_not_mem (c : Char) (s : List Char) (h : c ∉ s) : pySplit c s = [s] := by
  induction s with
  | nil => rfl
  | cons x xs ih =>
    have hx : ¬(x = c) := by
      rintro rfl
      exact h (List.mem_cons_self x xs)
    have hxs : c ∉ xs := fun hc => h (List.mem_cons_of_mem x hc)
    simp [pySplit, hx, ih hxs]

/-- C8: for a script text whose content up to the first semicolon holds at
least two apostrophes, the extracted signature is exactly the substring of
that pre-semicolon prefix lying between its first and second apostrophes
(the first single-quoted literal). -/
theorem c8_signature_extraction (s : List Char)
    (h : 2 ≤ (uptoFirstSemicolon s).count squote) :
    get_signature (some s) = some (betweenFirstTwoQuotes (uptoFirstSemicolon s)) := by
  have hmem : squote ∈ uptoFirstSemicolon s := by
    by_contra hnot
    rw [List.count_eq_zero.mpr hnot] at h
    omega
  rw [show get_signature (some s) =
      (pySplit squote ((pySplit1 ';' s).headI))[1]? from rfl,
    pySplit1_headI]
  exact pySplit_one squote (s.takeWhile (fun y => y ≠ ';')) hmem

theorem c8_signature_extraction_witness :
    (2 ≤ (uptoFirstSemicolon ['v', squote, 'a', 'b', squote, ';', 'x']).count squote) ∧
    get_signature (some ['v', squote, 'a', 'b', squote, ';', 'x']) =
      some (betweenFirstTwoQuotes (uptoFirstSemicolon ['v', squote, 'a', 'b', squote, ';', 'x'])) :=
  ⟨by decide, c8_signature_extraction ['v', squote, 'a', 'b', squote, ';', 'x'] (by decide)⟩

/-- C10 counterexample: a script text whose pre-semicolon prefix holds
exactly one apostrophe (fewer than two) does not make the acquirer raise:
the extraction succeeds and returns the text after the apostrophe. -/
theorem c10_one_quote_no_raise :
    ((uptoFirstSemicolon ['x', squote, 'a', 'b']).count squote < 2) ∧
    get_signature (some ['x', squote, 'a', 'b']) = some ['a', 'b'] := by
  decide

/-- C10 amended: the acquirer raises exactly in the narrower cases: when the
parsed document has no script tag, and when the pre-semicolon prefix of the
script text holds no apostrophe at all; with one or more apostrophes it
returns the text after the first apostrophe, up to the second apostrophe or
the end of the prefix. -/
theorem c10_amended_raise_cases (s : List Char) :
    get_signature none = none ∧
    (squote ∉ uptoFirstSemicolon s → get_signature (some s) = none) ∧
    (squote ∈ uptoFirstSemicolon s →
      get_signature (some s) = some (betweenFirstTwoQuotes (uptoFirstSemicolon s))) := by
  refine ⟨rfl, ?_, ?_⟩
  · intro h
    rw [show get_signature (some s) =
        (pySplit squote ((pySplit1 ';' s).headI))[1]? from rfl,
      pySplit1_headI, pySplit_not_mem squote (s.takeWhile (fun y => y ≠ ';')) h]
    rfl
  · intro h
    rw [show get_signature (some s) =
        (pySplit squote ((pySplit1 ';' s).headI))[1]? from rfl,
      pySplit1_headI]
    exact pySplit_one squote (s.takeWhile (fun y => y ≠ ';')) h

theorem c10_amended_raise_cases_witness :
    (squote ∉ uptoFirstSemicolon ['a', 'b', ';', squote] ∧
      get_signature (some ['a', 'b', ';', squote]) = none) ∧
    (squote ∈ uptoFirstSemicolon ['x', squote, 'a', 'b'] ∧
      get_signature (some ['x', squote, 'a', 'b']) =
        some (betweenFirstTwoQuotes (uptoFirstSemicolon ['x', squote, 'a', 'b']))) :=
  ⟨⟨by decide, (c10_amended_raise_cases ['a', 'b', ';', squote]).2.1 (by decide)⟩,
   ⟨by decide, (c10_amended_raise_cases ['x', squote, 'a', 'b']).2.2 (by decide)⟩⟩
